import Mathlib

/-!
Verification of the reminder and recurrence engine of the todo service
(`common/service.py`, `common/scheduler.py`).

The engine's data is shallowly embedded: a `DateTime` mirrors the visible
fields of a naive Python `datetime`; a `Todo` mirrors the columns of the
`todos` table that drive the state machine; a store is a `List Todo`.
`id` is the table's primary key, so rows have pairwise distinct ids;
theorems that depend on that carry it as an explicit hypothesis.
Calendar arithmetic follows CPython's `datetime` module: `toOrdinal` is
`_ymd2ord` (proleptic Gregorian, ordinal 1 = 0001-01-01), a weekday is
`(ordinal + 6) % 7` with Monday = 0, and adding one day steps to the next
calendar day with month/year rollover.
-/

namespace TodoEngine

/-- The visible fields of a naive Python `datetime` value. -/
structure DateTime where
  year : Nat
  month : Nat
  day : Nat
  hour : Nat
  minute : Nat
  second : Nat
  micro : Nat
deriving Repr, DecidableEq

/-- Gregorian leap-year test, as in Python's `calendar.isleap`. -/
def isLeap (y : Nat) : Bool :=
  (y % 4 == 0 && y % 100 != 0) || y % 400 == 0

/-- Number of days in a month, as in `calendar.monthrange(y, m)[1]`. -/
def daysInMonth (y m : Nat) : Nat :=
  match m with
  | 1 => 31
  | 2 => if isLeap y then 29 else 28
  | 3 => 31
  | 4 => 30
  | 5 => 31
  | 6 => 30
  | 7 => 31
  | 8 => 31
  | 9 => 30
  | 10 => 31
  | 11 => 30
  | 12 => 31
  | _ => 0

/-- Cumulative day counts before each month in a non-leap year
(CPython's `_DAYS_BEFORE_MONTH`). -/
def cumDaysBeforeMonth (m : Nat) : Nat :=
  match m with
  | 1 => 0
  | 2 => 31
  | 3 => 59
  | 4 => 90
  | 5 => 120
  | 6 => 151
  | 7 => 181
  | 8 => 212
  | 9 => 243
  | 10 => 273
  | 11 => 304
  | 12 => 334
  | _ => 0

/-- Days in year `y` that precede month `m` (CPython's `_days_before_month`). -/
def daysBeforeMonth (y m : Nat) : Nat :=
  cumDaysBeforeMonth m + (if 2 < m ∧ isLeap y then 1 else 0)

/-- Days before January 1st of year `y` (CPython's `_days_before_year`). -/
def daysBeforeYear (y : Nat) : Nat :=
  365 * (y - 1) + (y - 1) / 4 - (y - 1) / 100 + (y - 1) / 400

/-- Proleptic Gregorian ordinal of a date (CPython's `_ymd2ord`);
0001-01-01 has ordinal 1. -/
def toOrdinal (t : DateTime) : Nat :=
  daysBeforeYear t.year + daysBeforeMonth t.year t.month + t.day

/-- Day of week with Monday = 0 (Python's `date.weekday`). -/
def weekday (t : DateTime) : Nat :=
  (toOrdinal t + 6) % 7

/-- Step to the next calendar day, keeping the time of day
(`datetime + timedelta(days=1)` on a valid datetime). -/
def nextDay (t : DateTime) : DateTime :=
  if t.day < daysInMonth t.year t.month then { t with day := t.day + 1 }
  else if t.month < 12 then { t with month := t.month + 1, day := 1 }
  else { t with year := t.year + 1, month := 1, day := 1 }

/-- `datetime + timedelta(days=n)`. -/
def addDays (t : DateTime) (n : Nat) : DateTime :=
  nextDay^[n] t

/-- Total microseconds since the calendar epoch; naive datetimes compare by
this quantity. -/
def ticks (t : DateTime) : Nat :=
  ((((toOrdinal t) * 24 + t.hour) * 60 + t.minute) * 60 + t.second) * 1000000 + t.micro

/-- `dt.replace(microsecond=0)`. -/
def truncSec (t : DateTime) : DateTime :=
  { t with micro := 0 }

/-- The field ranges a Python `datetime` guarantees by construction. -/
def Valid (t : DateTime) : Prop :=
  1 ≤ t.year ∧ 1 ≤ t.month ∧ t.month ≤ 12 ∧ 1 ≤ t.day ∧ t.day ≤ daysInMonth t.year t.month

instance (t : DateTime) : Decidable (Valid t) := by
  unfold Valid
  infer_instance

/-- A row of the `todos` table, restricted to the engine-relevant columns. -/
structure Todo where
  id : Nat
  user_id : Nat
  title : String
  note : Option String
  status : String
  remind_at : Option DateTime
  repeat_rule : Option String
  reminded : Bool
  remind_count : Nat
  last_remind_at : Option DateTime
  completed_at : Option DateTime
deriving Repr, DecidableEq

/-- Python truthiness of an optional string: `None` and the empty string are
falsy. -/
def pyTruthy : Option String → Bool
  | none => false
  | some s => !(s == "")

/-- `_calculate_next_remind_time(current_remind_at, repeat_rule)`: the
recurrence calculator. An unrecognized (or falsy) rule yields no next
occurrence. -/
def calculateNextRemindTime (cur : DateTime) (rule : Option String) : Option DateTime :=
  match rule with
  | none => none
  | some r =>
    if r == "" then none
    else if r == "daily" then some (addDays cur 1)
    else if r == "workday" then
      if weekday cur < 4 then some (addDays cur 1) else some (addDays cur 3)
    else if r == "weekly" then some (addDays cur 7)
    else if r == "monthly" then
      let y := if cur.month == 12 then cur.year + 1 else cur.year
      let m := if cur.month == 12 then 1 else cur.month + 1
      some ⟨y, m, min cur.day (daysInMonth y m), cur.hour, cur.minute, cur.second, 0⟩
    else none

/-- `mark_reminded`'s per-row transition (the notification outcome
processor), applied at time `now` to the fetched row `t`. -/
def markStep (now : DateTime) (t : Todo) : Todo :=
  let new_count := t.remind_count + 1
  let status1 := if 3 ≤ new_count then "failed" else t.status
  let next : Option DateTime :=
    match t.remind_at with
    | some r => if pyTruthy t.repeat_rule then calculateNextRemindTime r t.repeat_rule else none
    | none => none
  let t1 : Todo :=
    { t with reminded := true, remind_count := new_count,
             last_remind_at := some now, status := status1 }
  match next with
  | some nxt => { t1 with remind_at := some nxt, reminded := false }
  | none => t1

/-- `mark_reminded(todo_id)`: look the row up by primary key and, when it
exists, persist the outcome transition to it. -/
def markReminded (todo_id : Nat) (now : DateTime) (store : List Todo) : List Todo :=
  match store.find? (fun t => t.id == todo_id) with
  | none => store
  | some _ => store.map (fun t => if t.id == todo_id then markStep now t else t)

/-- First-due eligibility class of `fetch_due_reminders`. -/
def firstDueB (now : DateTime) (t : Todo) : Bool :=
  t.status == "pending" && t.reminded == false &&
    (match t.remind_at with
     | some r => decide (ticks r ≤ ticks now)
     | none => false)

/-- Retry-due eligibility class of `fetch_due_reminders`.  The SQL condition
`last_remind_at <= now - 10 minutes` is embedded as the equivalent
`ticks last_remind_at + 10 minutes <= ticks now`. -/
def retryDueB (now : DateTime) (t : Todo) : Bool :=
  t.status == "pending" && decide (t.remind_count < 3) &&
    (match t.last_remind_at with
     | some l => decide (ticks l + 600 * 1000000 ≤ ticks now)
     | none => false)

/-- `fetch_due_reminders(now)`: the first-due page followed by the retry-due
page, each capped at 50 rows. -/
def fetchDueReminders (now : DateTime) (store : List Todo) : List Todo :=
  (store.filter (firstDueB now)).take 50 ++ (store.filter (retryDueB now)).take 50

/-- The value part of both startup-reconciliation updates. -/
def startupReset (t : Todo) : Todo :=
  { t with reminded := false, remind_count := 0, last_remind_at := none }

/-- The row filter shared by both startup-reconciliation updates (the two
updates then split on `repeat_rule` being absent or present). -/
def startupCond (now : DateTime) (t : Todo) : Bool :=
  t.status == "pending" && t.reminded == true &&
    (match t.remind_at with
     | some r => decide (ticks r < ticks now)
     | none => false)

/-- `ReminderScheduler._fix_reminder_status_on_startup`: two sequential bulk
updates, first over rows without a repeat rule, then over rows with one. -/
def fixReminderStatusOnStartup (now : DateTime) (store : List Todo) : List Todo :=
  let s1 := store.map (fun t => if startupCond now t && t.repeat_rule == none then startupReset t else t)
  s1.map (fun t => if startupCond now t && t.repeat_rule != none then startupReset t else t)

/-- Row filter of `recover_failed_todos` (SQL `repeat_rule != None`). -/
def recoverCond (t : Todo) : Bool :=
  t.status == "failed" && t.repeat_rule.isSome

/-- Per-row reset applied by `recover_failed_todos`. -/
def recoverReset (t : Todo) : Todo :=
  { t with status := "pending", remind_count := 0, last_remind_at := none, reminded := false }

/-- `recover_failed_todos()`: mutate each fetched row in turn (each ORM
flush is an UPDATE keyed by the primary key) and return how many were
fetched. -/
def recoverFailedTodos (store : List Todo) : List Todo × Nat :=
  let failed := store.filter recoverCond
  (failed.foldl
    (fun acc td => acc.map (fun t => if t.id == td.id then recoverReset t else t)) store,
   failed.length)

/-- `complete_todo(user, todo_id)`: close a one-shot task, re-arm a
recurring one. -/
def completeTodo (uid todo_id : Nat) (now : DateTime) (store : List Todo) : Bool × List Todo :=
  match store.find? (fun t => t.id == todo_id && t.user_id == uid) with
  | none => (false, store)
  | some t =>
    if t.status == "done" then (true, store)
    else if pyTruthy t.repeat_rule then
      (true, store.map (fun x => if x.id == t.id then
        { x with status := "pending", remind_count := 0, last_remind_at := none } else x))
    else
      (true, store.map (fun x => if x.id == t.id then
        { x with status := "done", completed_at := some now } else x))

/-- A task store together with the next auto-increment primary key. -/
structure Store where
  todos : List Todo
  nextId : Nat
deriving Repr, DecidableEq

/-- `undo_todo(user, todo_id)`: only a `done` row owned by the caller can be
undone; it is deleted and re-created as a fresh `pending` row. -/
def undoTodo (uid todo_id : Nat) (store : Store) : Bool × Store :=
  match store.todos.find? (fun t => t.id == todo_id && t.user_id == uid) with
  | none => (false, store)
  | some t =>
    if t.status != "done" then (false, store)
    else
      let newTodo : Todo :=
        { id := store.nextId, user_id := uid, title := t.title, note := t.note,
          status := "pending", remind_at := t.remind_at, repeat_rule := t.repeat_rule,
          reminded := false, remind_count := 0, last_remind_at := none, completed_at := none }
      (true, { todos := (store.todos.filter (fun x => !(x.id == todo_id))) ++ [newTodo],
               nextId := store.nextId + 1 })

/-- Sort key used by the acknowledgement resolver: the value of
`last_remind_at` (absent sorts last). -/
def lastKey (t : Todo) : Nat :=
  match t.last_remind_at with
  | some l => ticks l
  | none => 0

/-- `order_by(last_remind_at.desc())` as a relation on rows. -/
def descByLast (a b : Todo) : Prop :=
  lastKey b ≤ lastKey a

instance : DecidableRel descByLast :=
  fun a b => Nat.decLe (lastKey b) (lastKey a)

instance : IsTotal Todo descByLast :=
  ⟨fun a b => Nat.le_total (lastKey b) (lastKey a)⟩

instance : IsTrans Todo descByLast :=
  ⟨fun _ _ _ h1 h2 => Nat.le_trans h2 h1⟩

/-- Quarantine-first fetch of `complete_recently_reminded_todos`. -/
def failedFetch (uid : Nat) (store : List Todo) : List Todo :=
  ((store.filter (fun t => t.user_id == uid && t.status == "failed" && t.last_remind_at.isSome)).insertionSort
    descByLast).take 50

/-- Recency-cohort fetch of `complete_recently_reminded_todos`. -/
def pendingFetch (uid : Nat) (store : List Todo) : List Todo :=
  ((store.filter (fun t => t.user_id == uid && t.status == "pending" && t.last_remind_at.isSome)).insertionSort
    descByLast).take 50

/-- Close/reset rule applied by the quarantine-first branch. -/
def applyAckFailed (now : DateTime) (t : Todo) : Todo :=
  if pyTruthy t.repeat_rule then
    { t with status := "pending", remind_count := 0, last_remind_at := none, reminded := false }
  else
    { t with status := "done", completed_at := some now }

/-- Close/reset rule applied by the recency-cohort branch (this branch does
not touch `reminded`). -/
def applyAckPending (now : DateTime) (t : Todo) : Todo :=
  if pyTruthy t.repeat_rule then
    { t with status := "pending", remind_count := 0, last_remind_at := none }
  else
    { t with status := "done", completed_at := some now }

/-- `last_remind_at.replace(microsecond=0) == latest.replace(microsecond=0)`
guarded by `last_remind_at` being set. -/
def sameSecond (a b : Option DateTime) : Bool :=
  match a, b with
  | some x, some y => truncSec x == truncSec y
  | _, _ => false

/-- `complete_recently_reminded_todos(user)`: resolve the quarantined batch
when there is one, otherwise the most recent co-notified `pending` cohort
(equal `last_remind_at` at second granularity, re-checking `pending` before
each apply). -/
def completeRecentlyRemindedTodos (uid : Nat) (now : DateTime) (store : List Todo) :
    Bool × List Todo :=
  match failedFetch uid store with
  | f :: fs =>
    (true, (f :: fs).foldl
      (fun acc td => acc.map (fun t => if t.id == td.id then applyAckFailed now t else t)) store)
  | [] =>
    match pendingFetch uid store with
    | [] => (false, store)
    | latest :: rest =>
      let cohort := (latest :: rest).filter (fun t => sameSecond t.last_remind_at latest.last_remind_at)
      let resolved := cohort.filter (fun t => t.status == "pending")
      if resolved.length == 0 then (false, store)
      else
        (true, resolved.foldl
          (fun acc td => acc.map (fun t => if t.id == td.id then applyAckPending now t else t)) store)

/-! ### Basic facts about the outcome transition -/

theorem markStep_remind_count (now : DateTime) (t : Todo) :
    (markStep now t).remind_count = t.remind_count + 1 := by
  simp only [markStep]
  repeat' split
  all_goals rfl

theorem markStep_status (now : DateTime) (t : Todo) :
    (markStep now t).status = if 3 ≤ t.remind_count + 1 then "failed" else t.status := by
  simp only [markStep]
  repeat' split
  all_goals rfl

theorem markStep_repeat_rule (now : DateTime) (t : Todo) :
    (markStep now t).repeat_rule = t.repeat_rule := by
  simp only [markStep]
  repeat' split
  all_goals rfl

theorem markStep_of_rule_none (now : DateTime) (t : Todo) (h : t.repeat_rule = none) :
    markStep now t =
      { t with reminded := true, remind_count := t.remind_count + 1,
               last_remind_at := some now,
               status := if 3 ≤ t.remind_count + 1 then "failed" else t.status } := by
  cases hd : t.remind_at <;> simp [markStep, h, hd, pyTruthy]

theorem markStep_of_next_some (now : DateTime) (t : Todo) (d nxt : DateTime)
    (hd : t.remind_at = some d) (hr : pyTruthy t.repeat_rule = true)
    (hn : calculateNextRemindTime d t.repeat_rule = some nxt) :
    markStep now t =
      { t with reminded := false, remind_count := t.remind_count + 1,
               last_remind_at := some now,
               status := if 3 ≤ t.remind_count + 1 then "failed" else t.status,
               remind_at := some nxt } := by
  simp [markStep, hd, hr, hn]

/-- Both due classes test `status = "pending"` first. -/
theorem due_classes_need_pending (q : DateTime) (t : Todo) (h : t.status ≠ "pending") :
    firstDueB q t = false ∧ retryDueB q t = false := by
  unfold firstDueB retryDueB
  rw [beq_eq_false_iff_ne.mpr h]
  simp

theorem addDays_addDays (t : DateTime) (m n : Nat) :
    addDays (addDays t m) n = addDays t (m + n) := by
  unfold addDays
  rw [Nat.add_comm m n, Function.iterate_add_apply]

/-! ### Sample data used by witnesses -/

def tick1 : DateTime := ⟨2025, 6, 2, 9, 0, 0, 0⟩

def tick2 : DateTime := ⟨2025, 6, 2, 9, 10, 0, 0⟩

def tick3 : DateTime := ⟨2025, 6, 2, 9, 20, 0, 0⟩

def oneShotTodo : Todo :=
  ⟨1, 1, "pay rent", none, "pending", some ⟨2025, 6, 2, 8, 0, 0, 0⟩, none, false, 0, none, none⟩

def dailyTodo : Todo :=
  ⟨2, 1, "standup", none, "pending", some ⟨2025, 6, 2, 9, 0, 0, 0⟩, some ("daily"), false, 0,
   none, none⟩

/-! ### Claim 1 -/

/-- C1: each processed outcome increments the retry count by one and sets
status to `failed` exactly when the new count reaches 3, leaving it
unchanged below the threshold; after three outcomes a one-shot task is
`failed` with `retry_count = 3` and matches neither due class (both classes
require `pending`). -/
theorem claim1_outcome_transition_and_quarantine :
    ∀ (t : Todo) (now : DateTime),
      ((markStep now t).remind_count = t.remind_count + 1 ∧
        (markStep now t).status = (if 3 ≤ t.remind_count + 1 then "failed" else t.status)) ∧
      (t.status = "pending" → t.remind_count = 0 → t.repeat_rule = none →
        ∀ n2 n3 q : DateTime,
          (markStep n3 (markStep n2 (markStep now t))).status = "failed" ∧
          (markStep n3 (markStep n2 (markStep now t))).remind_count = 3 ∧
          firstDueB q (markStep n3 (markStep n2 (markStep now t))) = false ∧
          retryDueB q (markStep n3 (markStep n2 (markStep now t))) = false) := by
  intro t now
  refine ⟨⟨markStep_remind_count now t, markStep_status now t⟩, ?_⟩
  intro hst hcnt hrule n2 n3 q
  obtain ⟨i, u, ti, no, st, re, ru, rm, cn, la, co⟩ := t
  simp only at hst hcnt hrule
  subst hst hcnt hrule
  have hfail : (markStep n3 (markStep n2 (markStep now
      ⟨i, u, ti, no, "pending", re, none, rm, 0, la, co⟩))).status = "failed" := by
    cases re <;> simp [markStep, pyTruthy]
  have hcnt3 : (markStep n3 (markStep n2 (markStep now
      ⟨i, u, ti, no, "pending", re, none, rm, 0, la, co⟩))).remind_count = 3 := by
    cases re <;> simp [markStep, pyTruthy]
  have hnp := due_classes_need_pending q _ (by rw [hfail]; decide)
  exact ⟨hfail, hcnt3, hnp.1, hnp.2⟩

/-- Witness for C1 at a concrete one-shot task. -/
theorem claim1_witness :
    (markStep tick3 (markStep tick2 (markStep tick1 oneShotTodo))).status = "failed" ∧
    (markStep tick3 (markStep tick2 (markStep tick1 oneShotTodo))).remind_count = 3 ∧
    firstDueB tick3 (markStep tick3 (markStep tick2 (markStep tick1 oneShotTodo))) = false ∧
    retryDueB tick3 (markStep tick3 (markStep tick2 (markStep tick1 oneShotTodo))) = false :=
  (claim1_outcome_transition_and_quarantine oneShotTodo tick1).2 rfl rfl rfl tick2 tick3 tick3

/-! ### Claim 2 -/

theorem calcNext_isSome_of_valid_rule (d : DateTime) (r : String)
    (h : r = "daily" ∨ r = "workday" ∨ r = "weekly" ∨ r = "monthly") :
    ∃ nxt, calculateNextRemindTime d (some r) = some nxt := by
  rcases h with rfl | rfl | rfl | rfl
  · exact ⟨_, rfl⟩
  · unfold calculateNextRemindTime
    by_cases hw : weekday d < 4
    · exact ⟨addDays d 1, by simp [hw]⟩
    · exact ⟨addDays d 3, by simp [hw]⟩
  · exact ⟨_, rfl⟩
  · exact ⟨_, rfl⟩

/-- Counterexample to C2 as stated: on a concrete `daily` task, three
notification outcomes advance `remind_at` by three days (one per outcome),
not by one day. -/
theorem claim2_counterexample :
    (markStep tick3 (markStep tick2 (markStep tick1 dailyTodo))).status = "failed" ∧
    (markStep tick3 (markStep tick2 (markStep tick1 dailyTodo))).reminded = false ∧
    (markStep tick3 (markStep tick2 (markStep tick1 dailyTodo))).remind_at
      = some (addDays ⟨2025, 6, 2, 9, 0, 0, 0⟩ 3) ∧
    (markStep tick3 (markStep tick2 (markStep tick1 dailyTodo))).remind_at
      ≠ some (addDays ⟨2025, 6, 2, 9, 0, 0, 0⟩ 1) := by
  decide

/-- C2 amended: every outcome on a task with a recognized recurrence rule
and `remind_at` set overrides `remind_at` with the rule's next occurrence
and clears `notified`, even in the invocation that sets `failed`; after 3
outcomes under a `daily` rule the status is `failed`, `remind_at` has
advanced by 3 days (one day per outcome), and `notified = false`. -/
theorem claim2_rearm_override :
    (∀ (t : Todo) (now : DateTime) (r : String) (d : DateTime),
      t.repeat_rule = some r →
      (r = "daily" ∨ r = "workday" ∨ r = "weekly" ∨ r = "monthly") →
      t.remind_at = some d →
      ∃ nxt, calculateNextRemindTime d (some r) = some nxt ∧
        (markStep now t).remind_at = some nxt ∧
        (markStep now t).reminded = false) ∧
    (∀ (t : Todo) (d n1 n2 n3 : DateTime),
      t.status = "pending" → t.remind_count = 0 →
      t.repeat_rule = some ("daily") → t.remind_at = some d →
      (markStep n3 (markStep n2 (markStep n1 t))).status = "failed" ∧
      (markStep n3 (markStep n2 (markStep n1 t))).remind_at = some (addDays d 3) ∧
      (markStep n3 (markStep n2 (markStep n1 t))).reminded = false) := by
  constructor
  · intro t now r d hrule hvalid hrem
    obtain ⟨nxt, hn⟩ := calcNext_isSome_of_valid_rule d r hvalid
    have htr : pyTruthy t.repeat_rule = true := by
      rw [hrule]; rcases hvalid with rfl | rfl | rfl | rfl <;> rfl
    have hms := markStep_of_next_some now t d nxt hrem htr (by rw [hrule]; exact hn)
    exact ⟨nxt, hn, by rw [hms], by rw [hms]⟩
  · intro t d n1 n2 n3 hst hcnt hrule hrem
    obtain ⟨i, u, ti, no, st, re, ru, rm, cn, la, co⟩ := t
    simp only at hst hcnt hrule hrem
    subst hst hcnt hrule hrem
    refine ⟨?_, ?_, ?_⟩ <;>
      simp [markStep, pyTruthy, calculateNextRemindTime, addDays_addDays]

/-- Witness for C2's amended claim at a concrete daily task. -/
theorem claim2_rearm_override_witness :
    (∃ nxt, calculateNextRemindTime ⟨2025, 6, 2, 9, 0, 0, 0⟩ (some ("daily")) = some nxt ∧
      (markStep tick2 dailyTodo).remind_at = some nxt ∧
      (markStep tick2 dailyTodo).reminded = false) ∧
    ((markStep tick3 (markStep tick2 (markStep tick1 dailyTodo))).status = "failed" ∧
      (markStep tick3 (markStep tick2 (markStep tick1 dailyTodo))).remind_at
        = some (addDays ⟨2025, 6, 2, 9, 0, 0, 0⟩ 3) ∧
      (markStep tick3 (markStep tick2 (markStep tick1 dailyTodo))).reminded = false) :=
  ⟨claim2_rearm_override.1 dailyTodo tick2 "daily" ⟨2025, 6, 2, 9, 0, 0, 0⟩ rfl
      (Or.inl rfl) rfl,
   claim2_rearm_override.2 dailyTodo ⟨2025, 6, 2, 9, 0, 0, 0⟩ tick1 tick2 tick3
      rfl rfl rfl rfl⟩

/-! ### Claim 3 -/

/-- A row matching both eligibility classes at `tick1`: first-due because it
was never notified and its `remind_at` has passed, retry-due because a stale
`last_remind_at` lies more than ten minutes back. -/
def dupTodo : Todo :=
  ⟨7, 1, "overlap", none, "pending", some ⟨2025, 6, 2, 8, 0, 0, 0⟩, none, false, 0,
   some ⟨2025, 6, 2, 8, 30, 0, 0⟩, none⟩

/-- Counterexample to C3 as stated: `fetch_due_reminders` does not
de-duplicate; a concrete row that satisfies both classes is returned
twice. -/
theorem claim3_counterexample :
    ¬ ((fetchDueReminders tick1 [dupTodo]).map (fun t => t.id)).Nodup ∧
    (fetchDueReminders tick1 [dupTodo]).map (fun t => t.id) = [7, 7] := by
  decide

/-- C3 amended: the due-set query returns the first-due page concatenated
with the retry-due page without de-duplication, so a task satisfying both
classes simultaneously occurs (at least) twice in the handed-off list. -/
theorem claim3_concat_without_dedup :
    ∀ (now : DateTime) (store : List Todo) (t : Todo),
      t ∈ store → firstDueB now t = true → retryDueB now t = true →
      store.length ≤ 50 →
      fetchDueReminders now store
        = store.filter (firstDueB now) ++ store.filter (retryDueB now) ∧
      2 ≤ ((fetchDueReminders now store).map (fun x => x.id)).count t.id := by
  intro now store t hmem h1 h2 hlen
  have l1 : (store.filter (firstDueB now)).length ≤ 50 :=
    le_trans (List.length_filter_le _ _) hlen
  have l2 : (store.filter (retryDueB now)).length ≤ 50 :=
    le_trans (List.length_filter_le _ _) hlen
  have heq : fetchDueReminders now store
      = store.filter (firstDueB now) ++ store.filter (retryDueB now) := by
    unfold fetchDueReminders
    rw [List.take_of_length_le l1, List.take_of_length_le l2]
  refine ⟨heq, ?_⟩
  rw [heq, List.map_append, List.count_append]
  have m1 : t.id ∈ (store.filter (firstDueB now)).map (fun x => x.id) :=
    List.mem_map_of_mem _ (List.mem_filter.mpr ⟨hmem, h1⟩)
  have m2 : t.id ∈ (store.filter (retryDueB now)).map (fun x => x.id) :=
    List.mem_map_of_mem _ (List.mem_filter.mpr ⟨hmem, h2⟩)
  have c1 := List.count_pos_iff.mpr m1
  have c2 := List.count_pos_iff.mpr m2
  omega

/-- Witness for C3's amended claim on the concrete doubly-eligible row. -/
theorem claim3_concat_without_dedup_witness :
    2 ≤ ((fetchDueReminders tick1 [dupTodo]).map (fun x => x.id)).count 7 :=
  (claim3_concat_without_dedup tick1 [dupTodo] dupTodo (by decide) (by decide)
    (by decide) (by decide)).2

/-! ### Claim 4 -/

/-- A row just reset by the startup reconciler no longer matches its filter
(`reminded` became false), which is what makes the pass idempotent. -/
theorem startupCond_startupReset (now : DateTime) (t : Todo) :
    startupCond now (startupReset t) = false := by
  unfold startupCond startupReset
  simp

/-- C4: the startup reconciler resets `notified`, `retry_count` and
`last_notified_at` for exactly the `pending` rows with `notified = true` and
a past `remind_at`, regardless of the presence of a recurrence rule (the two
rule-split updates combine into one condition); and the pass is idempotent. -/
theorem claim4_startup_reset_idempotent :
    ∀ (now : DateTime) (store : List Todo),
      fixReminderStatusOnStartup now store
        = store.map (fun t => if startupCond now t then
            { t with reminded := false, remind_count := 0, last_remind_at := none } else t) ∧
      fixReminderStatusOnStartup now (fixReminderStatusOnStartup now store)
        = fixReminderStatusOnStartup now store := by
  intro now store
  have hmain : ∀ s : List Todo, fixReminderStatusOnStartup now s
      = s.map (fun t => if startupCond now t then startupReset t else t) := by
    intro s
    unfold fixReminderStatusOnStartup
    rw [List.map_map]
    apply List.map_congr_left
    intro a _
    by_cases hc : startupCond now a
    · cases hr : a.repeat_rule
      · simp [Function.comp, hc, hr, startupCond_startupReset]
      · simp [Function.comp, hc, hr, startupCond_startupReset]
    · simp [Function.comp, hc]
  refine ⟨hmain store, ?_⟩
  rw [hmain store, hmain (store.map (fun t => if startupCond now t then startupReset t else t))]
  rw [List.map_map]
  apply List.map_congr_left
  intro a _
  by_cases hc : startupCond now a
  · simp [Function.comp, hc, startupCond_startupReset]
  · simp [Function.comp, hc]

/-! ### Persisting a batch of mutated rows

The loops in `recover_failed_todos` and
`complete_recently_reminded_todos` mutate each fetched row and commit; each
flush is an UPDATE keyed by the row's primary key.  The lemmas below show
that, when ids are pairwise distinct, such a loop equals one map over the
store. -/

theorem foldl_mapUpdate_nil (f : Todo → Todo) (sel : List Todo) :
    sel.foldl (fun acc td => acc.map (fun t => if t.id == td.id then f t else t)) [] = [] := by
  induction sel with
  | nil => rfl
  | cons s ss ih => simpa using ih

theorem foldl_mapUpdate_cons (f : Todo → Todo) (sel : List Todo) (a : Todo) (rest : List Todo) :
    sel.foldl (fun acc td => acc.map (fun t => if t.id == td.id then f t else t)) (a :: rest)
      = sel.foldl (fun x td => if x.id == td.id then f x else x) a
        :: sel.foldl (fun acc td => acc.map (fun t => if t.id == td.id then f t else t)) rest := by
  induction sel generalizing a rest with
  | nil => rfl
  | cons s ss ih =>
    simp only [List.foldl_cons, List.map_cons]
    exact ih _ _

theorem elemFold_skip (f : Todo → Todo) (sel : List Todo) (a : Todo)
    (h : ∀ td ∈ sel, a.id ≠ td.id) :
    sel.foldl (fun x td => if x.id == td.id then f x else x) a = a := by
  induction sel with
  | nil => rfl
  | cons s ss ih =>
    simp only [List.foldl_cons]
    rw [if_neg (by simp [h s (List.mem_cons_self s ss)])]
    exact ih (fun td htd => h td (List.mem_cons_of_mem s htd))

theorem elemFold_hit (f : Todo → Todo) (hid : ∀ t, (f t).id = t.id)
    (s1 s2 : List Todo) (a : Todo)
    (h1 : ∀ td ∈ s1, a.id ≠ td.id) (h2 : ∀ td ∈ s2, a.id ≠ td.id) :
    (s1 ++ a :: s2).foldl (fun x td => if x.id == td.id then f x else x) a = f a := by
  rw [List.foldl_append, elemFold_skip f s1 a h1]
  simp only [List.foldl_cons]
  rw [if_pos (by simp)]
  exact elemFold_skip f s2 (f a) (fun td htd => by rw [hid]; exact h2 td htd)

theorem foldl_update_eq_map (f : Todo → Todo) (hid : ∀ t, (f t).id = t.id)
    (sel : List Todo) (hnod : (sel.map (fun t => t.id)).Nodup) :
    ∀ store : List Todo,
      (∀ td ∈ sel, ∀ t ∈ store, t.id = td.id → t = td) →
      sel.foldl (fun acc td => acc.map (fun t => if t.id == td.id then f t else t)) store
        = store.map (fun t => if sel.any (fun td => t.id == td.id) then f t else t) := by
  intro store
  induction store with
  | nil => intro _; rw [foldl_mapUpdate_nil]; rfl
  | cons a rest ih =>
    intro hcons
    rw [foldl_mapUpdate_cons, List.map_cons]
    have htail := ih (fun td htd t ht hie => hcons td htd t (List.mem_cons_of_mem a ht) hie)
    rw [htail]
    congr 1
    by_cases hmem : sel.any (fun td => a.id == td.id) = true
    · obtain ⟨td, htd, hbeq⟩ := List.any_eq_true.mp hmem
      have haeq : a = td :=
        hcons td htd a (List.mem_cons_self a rest) (beq_iff_eq.mp hbeq)
      have hasel : a ∈ sel := haeq ▸ htd
      obtain ⟨s1, s2, hsplit⟩ := List.append_of_mem hasel
      have hnod2 := hsplit ▸ hnod
      simp only [List.map_append, List.map_cons, List.nodup_append, List.nodup_cons,
        List.mem_append, List.mem_cons, List.disjoint_left] at hnod2
      rw [if_pos hmem, hsplit]
      apply elemFold_hit f hid s1 s2 a
      · intro td2 htd2 hid2
        exact hnod2.2.2 (List.mem_map_of_mem (fun t => t.id) htd2) (Or.inl hid2.symm)
      · intro td2 htd2 hid2
        exact hnod2.2.1.1 (hid2 ▸ List.mem_map_of_mem (fun t => t.id) htd2)
    · have hfalse : sel.any (fun td => a.id == td.id) = false :=
        Bool.eq_false_iff.mpr hmem
      rw [if_neg (by simp [hmem])]
      apply elemFold_skip
      intro td htd hcontra
      exact hmem (List.any_eq_true.mpr ⟨td, htd, beq_iff_eq.mpr hcontra⟩)

/-- Rows of a distinct-id store are determined by their id. -/
theorem eq_of_same_id (store : List Todo) (hnod : (store.map (fun t => t.id)).Nodup)
    (a b : Todo) (ha : a ∈ store) (hb : b ∈ store) (hab : a.id = b.id) : a = b :=
  List.inj_on_of_nodup_map hnod ha hb hab

theorem nodup_filter_map_id (store : List Todo) (p : Todo → Bool)
    (hnod : (store.map (fun t => t.id)).Nodup) :
    ((store.filter p).map (fun t => t.id)).Nodup :=
  ((List.filter_sublist store).map (fun t => t.id)).nodup hnod

/-! ### Claim 5 -/

theorem recoverCond_iff (t : Todo) :
    recoverCond t = true ↔ t.status = "failed" ∧ t.repeat_rule ≠ none := by
  unfold recoverCond
  simp [Option.isSome_iff_ne_none]

/-- C5: quarantine recovery resets exactly the `failed` rows that carry a
recurrence rule — each becomes `pending` with `retry_count = 0`,
`last_notified_at = none`, `notified = false` — leaves every other row
(one-shot `failed` rows included) completely unchanged, and returns the
number of rows it reset. -/
theorem claim5_recover_failed :
    ∀ store : List Todo,
      ((store.map (fun t => t.id)).Nodup →
        (recoverFailedTodos store).1
          = store.map (fun t =>
              if t.status = "failed" ∧ t.repeat_rule ≠ none then
                { t with status := "pending", remind_count := 0, last_remind_at := none,
                         reminded := false }
              else t)) ∧
      (recoverFailedTodos store).2
        = (store.filter (fun t => t.status == "failed" && t.repeat_rule.isSome)).length := by
  intro store
  refine ⟨?_, rfl⟩
  intro hnod
  show (store.filter recoverCond).foldl
      (fun acc td => acc.map (fun t => if t.id == td.id then recoverReset t else t)) store = _
  rw [foldl_update_eq_map recoverReset (fun t => rfl) (store.filter recoverCond)
    (nodup_filter_map_id store recoverCond hnod) store
    (fun td htd t ht hie => eq_of_same_id store hnod t td ht (List.mem_of_mem_filter htd) hie)]
  apply List.map_congr_left
  intro a ha
  have hiff : (store.filter recoverCond).any (fun td => a.id == td.id) = true
      ↔ (a.status = "failed" ∧ a.repeat_rule ≠ none) := by
    constructor
    · intro hany
      obtain ⟨td, htd, hbeq⟩ := List.any_eq_true.mp hany
      have : a = td :=
        eq_of_same_id store hnod a td ha (List.mem_of_mem_filter htd) (beq_iff_eq.mp hbeq)
      subst this
      exact (recoverCond_iff a).mp (List.of_mem_filter htd)
    · intro hc
      exact List.any_eq_true.mpr
        ⟨a, List.mem_filter.mpr ⟨ha, (recoverCond_iff a).mpr hc⟩, beq_iff_eq.mpr rfl⟩
  by_cases hc : a.status = "failed" ∧ a.repeat_rule ≠ none
  · rw [if_pos (hiff.mpr hc), if_pos hc]
    rfl
  · rw [if_neg (fun hx => hc (hiff.mp hx)), if_neg hc]

/-- A quarantined recurring row and a quarantined one-shot row used by the
C5 witness. -/
def failedDaily : Todo :=
  ⟨3, 1, "water plants", none, "failed", some ⟨2025, 6, 2, 7, 0, 0, 0⟩, some ("daily"), true, 3,
   some ⟨2025, 6, 2, 7, 20, 0, 0⟩, none⟩

def failedOnce : Todo :=
  ⟨4, 1, "call bank", none, "failed", some ⟨2025, 6, 1, 10, 0, 0, 0⟩, none, true, 3,
   some ⟨2025, 6, 1, 10, 20, 0, 0⟩, none⟩

/-- Witness for C5: only the recurring `failed` row is reset, the one-shot
`failed` row and the pending row are untouched, and the count is 1. -/
theorem claim5_recover_failed_witness :
    (recoverFailedTodos [failedDaily, failedOnce, oneShotTodo]).1
      = [recoverReset failedDaily, failedOnce, oneShotTodo] ∧
    (recoverFailedTodos [failedDaily, failedOnce, oneShotTodo]).2 = 1 := by
  have h := (claim5_recover_failed [failedDaily, failedOnce, oneShotTodo]).1 (by decide)
  exact ⟨h.trans (by decide), by decide⟩

/-! ### Claim 9 -/

/-- A recurring `pending` row that has already been notified
(`reminded = true`). -/
def remindedDaily : Todo :=
  ⟨5, 1, "review inbox", none, "pending", some ⟨2025, 6, 2, 8, 0, 0, 0⟩, some ("daily"), true, 2,
   some ⟨2025, 6, 2, 8, 10, 0, 0⟩, none⟩

/-- Counterexample to C9 as stated: completing a concrete recurring task
re-arms it but does not reset the `notified` flag, which stays `true`. -/
theorem claim9_counterexample :
    (completeTodo 1 5 tick1 [remindedDaily]).2.map (fun t => t.reminded) = [true] ∧
    ¬ (∀ t ∈ (completeTodo 1 5 tick1 [remindedDaily]).2, t.reminded = false) := by
  decide

/-- C9 amended: completing a task that has a (truthy) recurrence rule and is
not `done` re-arms it: the row becomes `pending` with `retry_count = 0` and
`last_notified_at = none`, while `notified`, `completed_at` and every other
column are left unchanged; the row is never given status `done` or a
`completed_at` timestamp. -/
theorem claim9_complete_recurring_rearms :
    ∀ (uid todo_id : Nat) (now : DateTime) (store : List Todo) (t : Todo),
      store.find? (fun x => x.id == todo_id && x.user_id == uid) = some t →
      pyTruthy t.repeat_rule = true →
      t.status ≠ "done" →
      completeTodo uid todo_id now store
        = (true, store.map (fun x => if x.id == t.id then
            { x with status := "pending", remind_count := 0, last_remind_at := none }
          else x)) := by
  intro uid todo_id now store t hfind htr hnd
  simp only [completeTodo, hfind]
  rw [if_neg (by simp [hnd]), if_pos htr]

def remindedDailyReset : Todo :=
  { remindedDaily with status := "pending", remind_count := 0, last_remind_at := none }

/-- Witness for C9's amended claim on the concrete recurring row. -/
theorem claim9_complete_recurring_rearms_witness :
    completeTodo 1 5 tick1 [remindedDaily] = (true, [remindedDailyReset]) :=
  (claim9_complete_recurring_rearms 1 5 tick1 [remindedDaily] remindedDaily rfl rfl
    (by decide)).trans (by decide)

/-! ### Claim 10 -/

/-- C10: undo succeeds only on an existing row of the requesting owner with
status `done`; any other case reports failure and leaves the store
untouched.  On success the original row is deleted and a fresh `pending`
row is appended under the next auto-increment id (fresh by the primary-key
invariant), preserving title, note, `remind_at` and the recurrence rule. -/
theorem claim10_undo :
    ∀ (uid todo_id : Nat) (store : Store),
      (store.todos.find? (fun x => x.id == todo_id && x.user_id == uid) = none →
        undoTodo uid todo_id store = (false, store)) ∧
      (∀ t, store.todos.find? (fun x => x.id == todo_id && x.user_id == uid) = some t →
        t.status ≠ "done" → undoTodo uid todo_id store = (false, store)) ∧
      (∀ t, store.todos.find? (fun x => x.id == todo_id && x.user_id == uid) = some t →
        t.status = "done" →
        (∀ x ∈ store.todos, x.id < store.nextId) →
        undoTodo uid todo_id store
          = (true, ⟨(store.todos.filter (fun x => !(x.id == todo_id)))
              ++ [⟨store.nextId, uid, t.title, t.note, "pending", t.remind_at, t.repeat_rule,
                  false, 0, none, none⟩], store.nextId + 1⟩) ∧
        store.nextId ∉ store.todos.map (fun x => x.id) ∧
        (∀ x ∈ store.todos.filter (fun x => !(x.id == todo_id)), x.id ≠ todo_id)) := by
  intro uid todo_id store
  refine ⟨?_, ?_, ?_⟩
  · intro h
    simp only [undoTodo, h]
  · intro t hf hnd
    simp only [undoTodo, hf]
    rw [if_pos (by simp [hnd])]
  · intro t hf hd hinv
    refine ⟨?_, ?_, ?_⟩
    · simp only [undoTodo, hf]
      rw [if_neg (by simp [hd])]
    · intro hmem
      obtain ⟨x, hx, hxid⟩ := List.mem_map.mp hmem
      exact absurd hxid (Nat.ne_of_lt (hinv x hx))
    · intro x hx
      have := List.of_mem_filter hx
      simpa using this

/-- A completed recurring row and its re-created `pending` successor, used
by the C10 witness. -/
def doneWeekly : Todo :=
  ⟨9, 2, "ship release", some ("notes"), "done", some ⟨2025, 6, 9, 10, 0, 0, 0⟩, some ("weekly"),
   true, 1, some ⟨2025, 6, 2, 10, 10, 0, 0⟩, some ⟨2025, 6, 2, 11, 0, 0, 0⟩⟩

def undoneWeekly : Todo :=
  ⟨10, 2, "ship release", some ("notes"), "pending", some ⟨2025, 6, 9, 10, 0, 0, 0⟩,
   some ("weekly"), false, 0, none, none⟩

/-- Witness for C10: undoing a concrete `done` row deletes it and creates
the fresh `pending` copy under the next id. -/
theorem claim10_undo_witness :
    undoTodo 2 9 ⟨[doneWeekly], 10⟩ = (true, ⟨[undoneWeekly], 11⟩) ∧
    (10 : Nat) ∉ ([doneWeekly].map (fun x => x.id)) := by
  have h := (claim10_undo 2 9 ⟨[doneWeekly], 10⟩).2.2 doneWeekly rfl rfl (by decide)
  exact ⟨h.1.trans (by decide), h.2.1⟩

/-! ### Claim 7 -/

/-- C7: the `monthly` rule keeps day-of-month, hour, minute and second and
moves one calendar month later, clamping the day to the target month's
length (`min`); December rolls over to January of the next year; in
particular Jan 31, 09:00 maps to Feb 28 (non-leap) or Feb 29 (leap),
09:00. -/
theorem claim7_monthly_rule :
    ∀ (y m d h mi s mu : Nat),
      1 ≤ m → m ≤ 12 → 1 ≤ d → d ≤ daysInMonth y m →
      ((m < 12 →
        calculateNextRemindTime ⟨y, m, d, h, mi, s, mu⟩ (some ("monthly"))
          = some ⟨y, m + 1, min d (daysInMonth y (m + 1)), h, mi, s, 0⟩) ∧
       (m = 12 →
        calculateNextRemindTime ⟨y, m, d, h, mi, s, mu⟩ (some ("monthly"))
          = some ⟨y + 1, 1, d, h, mi, s, 0⟩)) ∧
      calculateNextRemindTime ⟨2025, 1, 31, 9, 0, 0, 0⟩ (some ("monthly"))
        = some ⟨2025, 2, 28, 9, 0, 0, 0⟩ ∧
      calculateNextRemindTime ⟨2024, 1, 31, 9, 0, 0, 0⟩ (some ("monthly"))
        = some ⟨2024, 2, 29, 9, 0, 0, 0⟩ := by
  intro y m d h mi s mu hm1 hm2 hd1 hd2
  refine ⟨⟨?_, ?_⟩, by decide, by decide⟩
  · intro hlt
    have hne : (m == 12) = false := by simp; omega
    simp [calculateNextRemindTime, hne]
  · intro he
    subst he
    have h31 : d ≤ 31 := by
      have : daysInMonth y 12 = 31 := rfl
      omega
    simp [calculateNextRemindTime, Nat.min_eq_left h31]
    exact h31

/-- Witness for C7 at May 31st (May has 31 days, June only 30, so the day
clamps to 30). -/
theorem claim7_monthly_rule_witness :
    calculateNextRemindTime ⟨2025, 5, 31, 18, 15, 0, 0⟩ (some ("monthly"))
      = some ⟨2025, 6, 30, 18, 15, 0, 0⟩ := by
  have h := ((claim7_monthly_rule 2025 5 31 18 15 0 0 (by decide) (by decide) (by decide)
    (by decide)).1).1 (by decide)
  exact h.trans (by decide)

/-! ### Calendar arithmetic: stepping a valid date advances its ordinal by
one, hence `addDays` advances weekdays modulo 7. -/

theorem daysInMonth_pos (y m : Nat) (h1 : 1 ≤ m) (h2 : m ≤ 12) :
    1 ≤ daysInMonth y m := by
  interval_cases m <;> simp only [daysInMonth] <;> (try split) <;> omega

theorem valid_nextDay {t : DateTime} (h : Valid t) : Valid (nextDay t) := by
  obtain ⟨hy, hm1, hm2, hd1, hd2⟩ := h
  unfold nextDay
  split_ifs with hlt hm
  · exact ⟨hy, hm1, hm2, Nat.succ_le_succ (Nat.zero_le t.day), hlt⟩
  · exact ⟨hy, Nat.succ_le_succ (Nat.zero_le t.month), hm, Nat.le_refl 1,
      daysInMonth_pos t.year (t.month + 1) (Nat.succ_le_succ (Nat.zero_le t.month)) hm⟩
  · exact ⟨Nat.succ_le_succ (Nat.zero_le t.year), Nat.le_refl 1,
      show (1 : Nat) ≤ 12 from by omega, Nat.le_refl 1,
      daysInMonth_pos (t.year + 1) 1 (Nat.le_refl 1) (show (1 : Nat) ≤ 12 from by omega)⟩

theorem daysBeforeMonth_succ (y m : Nat) (h1 : 1 ≤ m) (h2 : m ≤ 11) :
    daysBeforeMonth y (m + 1) = daysBeforeMonth y m + daysInMonth y m := by
  cases hl : isLeap y <;>
    interval_cases m <;>
      simp [daysBeforeMonth, cumDaysBeforeMonth, daysInMonth, hl]

set_option maxHeartbeats 1600000 in
theorem daysBeforeYear_succ (y : Nat) (h : 1 ≤ y) :
    daysBeforeYear (y + 1) = daysBeforeYear y + 365 + (if isLeap y then 1 else 0) := by
  have hiff : isLeap y = true ↔ ((y % 4 = 0 ∧ ¬ y % 100 = 0) ∨ y % 400 = 0) := by
    simp [isLeap]
  unfold daysBeforeYear
  by_cases hl : isLeap y
  · rw [if_pos hl]
    have hc := hiff.mp hl
    omega
  · rw [if_neg hl]
    have hc : ¬ ((y % 4 = 0 ∧ ¬ y % 100 = 0) ∨ y % 400 = 0) := fun hx => hl (hiff.mpr hx)
    omega

theorem toOrdinal_nextDay {t : DateTime} (h : Valid t) :
    toOrdinal (nextDay t) = toOrdinal t + 1 := by
  obtain ⟨hy, hm1, hm2, hd1, hd2⟩ := h
  unfold nextDay
  by_cases hlt : t.day < daysInMonth t.year t.month
  · rw [if_pos hlt]
    show daysBeforeYear t.year + daysBeforeMonth t.year t.month + (t.day + 1)
        = daysBeforeYear t.year + daysBeforeMonth t.year t.month + t.day + 1
    omega
  · rw [if_neg hlt]
    have hday : t.day = daysInMonth t.year t.month :=
      le_antisymm hd2 (Nat.not_lt.mp hlt)
    by_cases hm : t.month < 12
    · rw [if_pos hm]
      show daysBeforeYear t.year + daysBeforeMonth t.year (t.month + 1) + 1
          = daysBeforeYear t.year + daysBeforeMonth t.year t.month + t.day + 1
      rw [daysBeforeMonth_succ t.year t.month hm1 (by omega)]
      omega
    · rw [if_neg hm]
      have hm12 : t.month = 12 := by omega
      rw [hm12] at hday
      have h12 : daysBeforeMonth t.year 12 = 334 + (if isLeap t.year then 1 else 0) := by
        cases hl : isLeap t.year <;>
          simp [daysBeforeMonth, cumDaysBeforeMonth, hl]
      have h1 : daysBeforeMonth (t.year + 1) 1 = 0 := rfl
      have hd31 : daysInMonth t.year 12 = 31 := rfl
      show daysBeforeYear (t.year + 1) + daysBeforeMonth (t.year + 1) 1 + 1
          = daysBeforeYear t.year + daysBeforeMonth t.year t.month + t.day + 1
      rw [daysBeforeYear_succ t.year hy, hm12, h12, h1]
      by_cases hl : isLeap t.year
      · rw [if_pos hl]
        omega
      · rw [if_neg hl]
        omega

theorem toOrdinal_addDays {t : DateTime} (h : Valid t) (n : Nat) :
    toOrdinal (addDays t n) = toOrdinal t + n ∧ Valid (addDays t n) := by
  induction n with
  | zero => exact ⟨rfl, h⟩
  | succ k ih =>
    have hstep : addDays t (k + 1) = nextDay (addDays t k) := by
      unfold addDays
      rw [Function.iterate_succ_apply']
    rw [hstep]
    exact ⟨by rw [toOrdinal_nextDay ih.2, ih.1]; omega, valid_nextDay ih.2⟩

theorem addDays_time (t : DateTime) (n : Nat) :
    (addDays t n).hour = t.hour ∧ (addDays t n).minute = t.minute ∧
    (addDays t n).second = t.second ∧ (addDays t n).micro = t.micro := by
  induction n with
  | zero => exact ⟨rfl, rfl, rfl, rfl⟩
  | succ k ih =>
    have hstep : addDays t (k + 1) = nextDay (addDays t k) := by
      unfold addDays
      rw [Function.iterate_succ_apply']
    rw [hstep]
    unfold nextDay
    split_ifs <;> exact ih

theorem weekday_addDays {t : DateTime} (h : Valid t) (n : Nat) :
    weekday (addDays t n) = (weekday t + n) % 7 := by
  unfold weekday
  rw [(toOrdinal_addDays h n).1]
  omega

/-! ### Claim 6 -/

/-- C6: under the `workday` rule, a Monday-to-Thursday occurrence advances
by one day and a Friday occurrence by three days, which lands on the
following Monday at the same time of day. -/
theorem claim6_workday_rule :
    ∀ t : DateTime, Valid t →
      (weekday t < 4 →
        calculateNextRemindTime t (some ("workday")) = some (addDays t 1)) ∧
      (weekday t = 4 →
        calculateNextRemindTime t (some ("workday")) = some (addDays t 3) ∧
        weekday (addDays t 3) = 0 ∧
        (addDays t 3).hour = t.hour ∧ (addDays t 3).minute = t.minute ∧
        (addDays t 3).second = t.second) := by
  intro t hv
  constructor
  · intro hw
    unfold calculateNextRemindTime
    simp [hw]
  · intro hw
    refine ⟨?_, ?_, (addDays_time t 3).1, (addDays_time t 3).2.1, (addDays_time t 3).2.2.1⟩
    · unfold calculateNextRemindTime
      simp [hw]
    · rw [weekday_addDays hv 3, hw]

/-- Witness for C6 at a concrete Friday (2025-06-06, 14:30). -/
theorem claim6_workday_rule_witness :
    weekday ⟨2025, 6, 6, 14, 30, 0, 0⟩ = 4 ∧
    calculateNextRemindTime ⟨2025, 6, 6, 14, 30, 0, 0⟩ (some ("workday"))
      = some (addDays ⟨2025, 6, 6, 14, 30, 0, 0⟩ 3) ∧
    weekday (addDays ⟨2025, 6, 6, 14, 30, 0, 0⟩ 3) = 0 := by
  have h := (claim6_workday_rule ⟨2025, 6, 6, 14, 30, 0, 0⟩ (by decide)).2 (by decide)
  exact ⟨by decide, h.1, h.2.1⟩

/-! ### Claim 8 -/

theorem applyAckPending_id (now : DateTime) (t : Todo) :
    (applyAckPending now t).id = t.id := by
  unfold applyAckPending
  split_ifs <;> rfl

theorem pendingPred_iff (uid : Nat) (t : Todo) :
    (t.user_id == uid && t.status == "pending" && t.last_remind_at.isSome) = true
      ↔ (t.user_id = uid ∧ t.status = "pending" ∧ t.last_remind_at.isSome = true) := by
  simp [and_assoc]

theorem mem_pending_filter_props {uid : Nat} {store : List Todo} {a : Todo}
    (h : a ∈ store.filter (fun t => t.user_id == uid && t.status == "pending"
      && t.last_remind_at.isSome)) :
    a.user_id = uid ∧ a.status = "pending" ∧ a.last_remind_at.isSome = true :=
  (pendingPred_iff uid a).mp (List.mem_filter.mp h).2

/-- C8: when the quarantine-first fetch is empty and the recency fetch
returns `latest :: rest` (with distinct ids and at most a page of matching
rows), `latest` carries the most recent `last_notified_at` among the
owner's pending notified rows, and one acknowledgement call resolves
exactly the pending rows of this owner whose `last_notified_at` equals
`latest`'s at second granularity — so rows equal to the second are all
resolved and a row one second earlier is untouched. -/
theorem claim8_recency_cohort :
    ∀ (uid : Nat) (now : DateTime) (store : List Todo) (latest : Todo) (rest : List Todo),
      (store.map (fun t => t.id)).Nodup →
      (store.filter (fun t => t.user_id == uid && t.status == "pending"
        && t.last_remind_at.isSome)).length ≤ 50 →
      failedFetch uid store = [] →
      pendingFetch uid store = latest :: rest →
      ((∀ td ∈ store, td.user_id = uid → td.status = "pending" →
          td.last_remind_at.isSome = true → lastKey td ≤ lastKey latest) ∧
       (latest ∈ store ∧ latest.user_id = uid ∧ latest.status = "pending" ∧
          latest.last_remind_at.isSome = true) ∧
       completeRecentlyRemindedTodos uid now store
         = (true, store.map (fun t =>
             if t.user_id = uid ∧ t.status = "pending" ∧
                sameSecond t.last_remind_at latest.last_remind_at = true
             then applyAckPending now t else t))) := by
  intro uid now store latest rest hnod hlen hfail hpend
  have hslen : ((store.filter (fun t => t.user_id == uid && t.status == "pending"
      && t.last_remind_at.isSome)).insertionSort descByLast).length ≤ 50 := by
    rw [List.length_insertionSort]
    exact hlen
  have hsorted_eq : (store.filter (fun t => t.user_id == uid && t.status == "pending"
      && t.last_remind_at.isSome)).insertionSort descByLast = latest :: rest := by
    have hx := hpend
    unfold pendingFetch at hx
    rwa [List.take_of_length_le hslen] at hx
  have hmem_iff : ∀ x : Todo, x ∈ latest :: rest ↔
      x ∈ store.filter (fun t => t.user_id == uid && t.status == "pending"
        && t.last_remind_at.isSome) := by
    intro x
    rw [← hsorted_eq]
    exact List.mem_insertionSort descByLast
  have hlatest_mem := (hmem_iff latest).mp (List.mem_cons_self _ _)
  have hlatest_store : latest ∈ store := List.mem_of_mem_filter hlatest_mem
  have hlatestp := mem_pending_filter_props hlatest_mem
  have hsorted : List.Sorted descByLast (latest :: rest) := by
    rw [← hsorted_eq]
    exact List.sorted_insertionSort descByLast _
  have hmax : ∀ td ∈ store, td.user_id = uid → td.status = "pending" →
      td.last_remind_at.isSome = true → lastKey td ≤ lastKey latest := by
    intro td hmem hu hs hl
    have htd : td ∈ latest :: rest :=
      (hmem_iff td).mpr (List.mem_filter.mpr ⟨hmem, (pendingPred_iff uid td).mpr ⟨hu, hs, hl⟩⟩)
    rcases List.mem_cons.mp htd with he | htl
    · rw [he]
    · exact List.rel_of_sorted_cons hsorted td htl
  refine ⟨hmax, ⟨hlatest_store, hlatestp.1, hlatestp.2.1, hlatestp.2.2⟩, ?_⟩
  have hres_eq : ((latest :: rest).filter
        (fun t => sameSecond t.last_remind_at latest.last_remind_at)).filter
        (fun t => t.status == "pending")
      = (latest :: rest).filter
        (fun t => sameSecond t.last_remind_at latest.last_remind_at) := by
    apply List.filter_eq_self.mpr
    intro a ha
    have hap := mem_pending_filter_props ((hmem_iff a).mp (List.mem_of_mem_filter ha))
    simp [hap.2.1]
  have hlatest_cohort : latest ∈ (latest :: rest).filter
      (fun t => sameSecond t.last_remind_at latest.last_remind_at) := by
    apply List.mem_filter.mpr
    refine ⟨List.mem_cons_self _ _, ?_⟩
    obtain ⟨l, hl⟩ := Option.isSome_iff_exists.mp hlatestp.2.2
    simp [sameSecond, hl]
  have hcne : (((latest :: rest).filter
      (fun t => sameSecond t.last_remind_at latest.last_remind_at)).length == 0) = false := by
    simp only [beq_eq_false_iff_ne, ne_eq, List.length_eq_zero]
    intro hc
    rw [hc] at hlatest_cohort
    exact List.not_mem_nil latest hlatest_cohort
  have hnod_lr : ((latest :: rest).map (fun t => t.id)).Nodup := by
    rw [← hsorted_eq]
    exact ((List.perm_insertionSort descByLast _).map (fun t => t.id)).nodup_iff.mpr
      (nodup_filter_map_id store _ hnod)
  have hsub : List.Sublist ((latest :: rest).filter
      (fun t => sameSecond t.last_remind_at latest.last_remind_at)) (latest :: rest) :=
    List.filter_sublist _
  have hnod_cohort : (((latest :: rest).filter
      (fun t => sameSecond t.last_remind_at latest.last_remind_at)).map
        (fun t => t.id)).Nodup :=
    (hsub.map (fun t => t.id)).nodup hnod_lr
  have hmem_cohort_store : ∀ td ∈ (latest :: rest).filter
      (fun t => sameSecond t.last_remind_at latest.last_remind_at), td ∈ store := by
    intro td htd
    exact List.mem_of_mem_filter ((hmem_iff td).mp (List.mem_of_mem_filter htd))
  have hfold := foldl_update_eq_map (applyAckPending now) (applyAckPending_id now)
    ((latest :: rest).filter (fun t => sameSecond t.last_remind_at latest.last_remind_at))
    hnod_cohort store
    (fun td htd t ht hie => eq_of_same_id store hnod t td ht (hmem_cohort_store td htd) hie)
  have hop : completeRecentlyRemindedTodos uid now store
      = (true, ((latest :: rest).filter
          (fun t => sameSecond t.last_remind_at latest.last_remind_at)).foldl
          (fun acc td => acc.map (fun t => if t.id == td.id then applyAckPending now t else t))
          store) := by
    unfold completeRecentlyRemindedTodos
    rw [hfail, hpend]
    simp only [hres_eq, hcne]
    rfl
  rw [hop, hfold]
  apply congrArg (Prod.mk true)
  apply List.map_congr_left
  intro t ht
  have hiff : ((latest :: rest).filter
      (fun t => sameSecond t.last_remind_at latest.last_remind_at)).any
        (fun td => t.id == td.id) = true
      ↔ (t.user_id = uid ∧ t.status = "pending" ∧
          sameSecond t.last_remind_at latest.last_remind_at = true) := by
    constructor
    · intro hany
      obtain ⟨td, htd, hbeq⟩ := List.any_eq_true.mp hany
      have hte : t = td :=
        eq_of_same_id store hnod t td ht (hmem_cohort_store td htd) (beq_iff_eq.mp hbeq)
      rw [hte]
      have hap := mem_pending_filter_props ((hmem_iff td).mp (List.mem_of_mem_filter htd))
      exact ⟨hap.1, hap.2.1, (List.mem_filter.mp htd).2⟩
    · intro ⟨hu, hs, hsame⟩
      have hisome : t.last_remind_at.isSome = true := by
        cases hl2 : t.last_remind_at
        · rw [hl2] at hsame
          simp [sameSecond] at hsame
        · rfl
      have htmem : t ∈ (latest :: rest).filter
          (fun x => sameSecond x.last_remind_at latest.last_remind_at) :=
        List.mem_filter.mpr ⟨(hmem_iff t).mpr (List.mem_filter.mpr
          ⟨ht, (pendingPred_iff uid t).mpr ⟨hu, hs, hisome⟩⟩), hsame⟩
      exact List.any_eq_true.mpr ⟨t, htmem, beq_iff_eq.mpr rfl⟩
  by_cases hcnd : t.user_id = uid ∧ t.status = "pending" ∧
      sameSecond t.last_remind_at latest.last_remind_at = true
  · rw [if_pos (hiff.mpr hcnd), if_pos hcnd]
  · rw [if_neg (fun hx => hcnd (hiff.mp hx)), if_neg hcnd]

/-- Three pending rows of one owner: two notified within the same second
(differing only in microseconds), one a second earlier. -/
def ackA : Todo :=
  ⟨21, 1, "email Amy", none, "pending", none, none, true, 1,
   some ⟨2025, 6, 2, 9, 0, 5, 0⟩, none⟩

def ackB : Todo :=
  ⟨22, 1, "email Bob", none, "pending", none, none, true, 1,
   some ⟨2025, 6, 2, 9, 0, 5, 500000⟩, none⟩

def ackC : Todo :=
  ⟨23, 1, "email Carol", none, "pending", none, none, true, 1,
   some ⟨2025, 6, 2, 9, 0, 4, 0⟩, none⟩

/-- Witness for C8: one acknowledgement resolves both same-second rows and
leaves the row notified one second earlier untouched. -/
theorem claim8_recency_cohort_witness :
    completeRecentlyRemindedTodos 1 tick3 [ackA, ackB, ackC]
      = (true, [applyAckPending tick3 ackA, applyAckPending tick3 ackB, ackC]) ∧
    lastKey ackA ≤ lastKey ackB ∧ lastKey ackC ≤ lastKey ackB := by
  have h := claim8_recency_cohort 1 tick3 [ackA, ackB, ackC] ackB [ackA, ackC]
    (by decide) (by decide) (by decide) (by decide)
  refine ⟨h.2.2.trans (by decide), ?_, ?_⟩
  · exact h.1 ackA (by decide) rfl rfl rfl
  · exact h.1 ackC (by decide) rfl rfl rfl

end TodoEngine
